import Mathlib

/-!
Shallow embedding of the ProfitAnalyzer Flask application (src/app.py).

Modelling conventions:
* `float` amounts are modelled as exact rationals (the claims under study are
  exact-arithmetic identities about which rows are aggregated, not about
  floating-point rounding).
* `datetime.strptime` parsing of the date and date-time form fields is
  modelled structurally: the raw request carries the numeric components and
  parsing succeeds exactly when they form a valid calendar date (and clock
  time), mirroring the `ValueError` raised by `strptime` otherwise.
* The SQL layer (SQLAlchemy over the configured backend) is modelled by
  explicit list traversals: `filter`/`between` become list filters, `SUM`
  becomes a list sum (with the `or 0` default collapsing to the empty sum),
  `ORDER BY date DESC` becomes a sort by the date order, and `ilike` becomes
  a case-insensitive SQL LIKE pattern matcher.
-/

set_option maxRecDepth 100000

namespace ProfitAnalyzer

/-- Calendar date as stored in the `date` column (year, month, day). -/
structure Date where
  year : Nat
  month : Nat
  day : Nat
deriving DecidableEq

/-- Wall-clock time as stored in the `time` column (hour, minute); the
`%Y-%m-%dT%H:%M` form format carries no seconds. -/
structure Time where
  hour : Nat
  minute : Nat
deriving DecidableEq

/-- The SQL ordering on the `date` column: lexicographic on
(year, month, day). -/
def Date.le (a b : Date) : Prop :=
  a.year < b.year ∨
    (a.year = b.year ∧
      (a.month < b.month ∨ (a.month = b.month ∧ a.day ≤ b.day)))

instance (a b : Date) : Decidable (Date.le a b) := by
  unfold Date.le
  infer_instance

theorem Date.le_total (a b : Date) : Date.le a b ∨ Date.le b a := by
  unfold Date.le
  omega

theorem Date.le_trans {a b c : Date} (h1 : Date.le a b) (h2 : Date.le b c) :
    Date.le a c := by
  unfold Date.le at *
  omega

/-- Gregorian leap-year rule, as implemented by Python's `datetime`. -/
def isLeapYear (y : Nat) : Bool :=
  (y % 4 == 0 && y % 100 != 0) || y % 400 == 0

/-- Length of a month, as enforced by Python's `datetime`. -/
def daysInMonth (y m : Nat) : Nat :=
  if m = 2 then (if isLeapYear y then 29 else 28)
  else if m = 4 ∨ m = 6 ∨ m = 9 ∨ m = 11 then 30
  else 31

/-- Models `datetime.strptime(s, '%Y-%m-%d').date()` on the structural
components of the supplied string: the parse succeeds exactly when the
components form a valid calendar date in `datetime`'s supported year range,
and raises `ValueError` (here: `none`) otherwise. -/
def parseDate (d : Date) : Option Date :=
  if 1 ≤ d.year ∧ d.year ≤ 9999 ∧ 1 ≤ d.month ∧ d.month ≤ 12 ∧
      1 ≤ d.day ∧ d.day ≤ daysInMonth d.year d.month
  then some d else none

/-- Raw components of a `date_time` form field in the `%Y-%m-%dT%H:%M`
format. -/
structure RawDateTime where
  year : Nat
  month : Nat
  day : Nat
  hour : Nat
  minute : Nat
deriving DecidableEq

/-- Models `datetime.strptime(s, '%Y-%m-%dT%H:%M')` followed by `.date()` and
`.time()`. -/
def parseDateTime (r : RawDateTime) : Option (Date × Time) :=
  match parseDate ⟨r.year, r.month, r.day⟩ with
  | some d => if r.hour ≤ 23 ∧ r.minute ≤ 59 then some (d, ⟨r.hour, r.minute⟩) else none
  | none => none

/-- A row of the `transaction` table (the `Transaction` model of app.py). -/
structure Transaction where
  id : Nat
  name : String
  transaction_type : String
  amount : ℚ
  date : Date
  time : Time
  receipt_image : Option String
deriving DecidableEq

/-- The transaction table plus the autoincrement counter for the integer
primary key. -/
structure Store where
  rows : List Transaction
  nextId : Nat
deriving DecidableEq

/-- `Transaction.query.get(id)`: primary-key lookup. -/
def getById (st : Store) (id : Nat) : Option Transaction :=
  st.rows.find? (fun t => t.id == id)

/-- ORDER BY `date` DESC, viewed as the relation "comes no later than" on
rows: `a` may precede `b` when `b.date ≤ a.date`. -/
def dateDesc (a b : Transaction) : Prop :=
  Date.le b.date a.date

instance (a b : Transaction) : Decidable (dateDesc a b) := by
  unfold dateDesc
  infer_instance

instance : IsTotal Transaction dateDesc :=
  ⟨fun a b => Date.le_total b.date a.date⟩

instance : IsTrans Transaction dateDesc :=
  ⟨fun _ _ _ hab hbc => Date.le_trans hbc hab⟩

/-- The result order of a query with ORDER BY `date` DESC. -/
def sortByDateDesc (l : List Transaction) : List Transaction :=
  List.insertionSort dateDesc l

theorem sortByDateDesc_perm (l : List Transaction) :
    (sortByDateDesc l).Perm l :=
  List.perm_insertionSort dateDesc l

theorem sortByDateDesc_pairwise (l : List Transaction) :
    (sortByDateDesc l).Pairwise dateDesc :=
  List.sorted_insertionSort dateDesc l

/-- SQL `BETWEEN`: inclusive on both ends. -/
def inRange (lo hi d : Date) : Bool :=
  decide (Date.le lo d) && decide (Date.le d hi)

/-- `db.session.query(db.func.sum(Transaction.amount)).filter(...).scalar() or 0`:
the sum of `amount` over the rows satisfying the filter, with the empty sum
being 0 (SQL returns NULL there and the handler coerces it with `or 0`). -/
def sumAmountWhere (rows : List Transaction) (p : Transaction → Bool) : ℚ :=
  ((rows.filter p).map Transaction.amount).sum

/-- ASCII lowercasing, as applied by the SQL layer for a case-insensitive
`ilike` comparison. -/
def lowerChar (c : Char) : Char :=
  if 'A' ≤ c ∧ c ≤ 'Z' then Char.ofNat (c.toNat + 32) else c

/-- SQL LIKE pattern matching, case-insensitive (SQLAlchemy's `ilike`):
the wildcard percent matches any (possibly empty) character sequence, the
wildcard underscore matches exactly one character, and every other pattern
character matches a single equal character up to ASCII case. -/
def ilikeM : List Char → List Char → Bool
  | [], s => s.isEmpty
  | p :: ps, s =>
    if p = '%' then
      ilikeM ps s ||
        (match s with
         | [] => false
         | _ :: s2 => ilikeM (p :: ps) s2)
    else
      match s with
      | [] => false
      | c :: s2 => (if p = '_' then true else lowerChar p == lowerChar c) && ilikeM ps s2
termination_by p s => (p.length, s.length)

/-- Specification-side predicate (from the spec's words, for comparison with
the source-derived `ilikeM` query): the query occurs in the name as a
case-insensitive substring. -/
def specContainsCI (q name : String) : Prop :=
  (q.toList.map lowerChar) <:+: (name.toList.map lowerChar)

instance (q name : String) : Decidable (specContainsCI q name) := by
  unfold specContainsCI
  infer_instance

/-- The uploaded-files directory, as a map from (sanitized) filename to file
bytes; writing to an existing filename replaces its content. -/
def FileStore := List (String × List Nat)

instance : DecidableEq FileStore := by
  unfold FileStore
  infer_instance

/-- An uploaded file from `request.files`: its client-supplied filename and
its bytes. -/
structure UploadFile where
  filename : String
  content : List Nat
deriving DecidableEq

/-- Werkzeug's `secure_filename` as used at both upload call sites: keeps
only ASCII alphanumerics, underscore, dot and hyphen, stripping path
separators and all other unsafe characters. -/
def secureFilename (s : String) : String :=
  String.mk (s.toList.filter (fun c => c.isAlphanum || c == '_' || c == '.' || c == '-'))

/-- `file.save(os.path.join(UPLOAD_FOLDER, filename))`: writes the bytes at
the given name, replacing any previous file of that name. -/
def saveFile (fs : FileStore) (filename : String) (content : List Nat) : FileStore :=
  (filename, content) :: List.filter (fun p => p.1 != filename) fs

/-- Reads the bytes stored at a name in the upload directory. -/
def lookupFile (fs : FileStore) (filename : String) : Option (List Nat) :=
  (List.find? (fun p => p.1 == filename) fs).map Prod.snd

/-- The ALLOWED_EXTENSIONS set declared in app.py (line 19). -/
def ALLOWED_EXTENSIONS : List String :=
  ["png", "jpg", "jpeg", "gif"]

/-- Modelled from the spec: the extension allow-list check that the declared
ALLOWED_EXTENSIONS set suggests, but that no code in the repository ever
performs (there is no allowed_file function and no call site consults the
set). -/
def hasAllowedExtension (filename : String) : Bool :=
  ('.' ∈ filename.toList) &&
    ALLOWED_EXTENSIONS.contains
      (String.mk (((filename.toList.reverse.takeWhile (fun c => c ≠ '.')).reverse).map lowerChar))

/-- The save sequence of the upload call sites (app.py lines 67-73 and
247-252): sanitize the client filename, write the bytes into the upload
directory under the sanitized name, and form the relative reference
`uploads/<sanitized_name>` stored in the database. -/
def saveUpload (fs : FileStore) (f : UploadFile) : FileStore × String :=
  let filename := secureFilename f.filename
  (saveFile fs filename f.content, "uploads/" ++ filename)

/-- Python's `str.strip()` as applied to the `search` query parameter:
removes leading and trailing whitespace. -/
def pyStrip (s : String) : String :=
  String.mk (((s.toList.dropWhile Char.isWhitespace).reverse.dropWhile Char.isWhitespace).reverse)

/-- The possible responses of the `/analysis` view, abstracted to their data
payload: a transaction listing, a totals summary (investments, expenditures,
sales, profit), a name-search result list, or a redirect back to
`/analysis`. -/
inductive AnalysisResponse where
  | listing (results : List Transaction)
  | totals (investments expenditures sales profit : ℚ)
  | nameResults (results : List Transaction)
  | redirect
deriving DecidableEq

/-- The query parameters of a GET `/analysis` request.  An absent or empty
(hence falsy in the handler's guards) `start_date`/`end_date` parameter is
`none`; a present non-empty one carries its raw numeric components, which
`parseDate` then validates. -/
structure AnalysisRequest where
  search : String
  search_type : Option String
  start_date : Option Date
  end_date : Option Date

/-- Branch 1 of the `/analysis` handler (app.py lines 110-133): date-range
listing. -/
def dateRangeListing (rows : List Transaction) (s e : Date) : AnalysisResponse :=
  match parseDate s, parseDate e with
  | some start, some stop =>
    if Date.le start stop then
      .listing (sortByDateDesc (rows.filter (fun t => inRange start stop t.date)))
    else .redirect
  | _, _ => .redirect

/-- Branch 2 of the `/analysis` handler (app.py lines 139-181): date-range
totals. -/
def dateRangeTotals (rows : List Transaction) (s e : Date) : AnalysisResponse :=
  match parseDate s, parseDate e with
  | some start, some stop =>
    if Date.le start stop then
      let investments := sumAmountWhere rows
        (fun t => t.transaction_type == "investment" && inRange start stop t.date)
      let expenditures := sumAmountWhere rows
        (fun t => t.transaction_type == "expenditure" && inRange start stop t.date)
      let sales := sumAmountWhere rows
        (fun t => t.transaction_type == "sales" && inRange start stop t.date)
      .totals investments expenditures sales (sales - (investments + expenditures))
    else .redirect
  | _, _ => .redirect

/-- Branch 3 of the `/analysis` handler (app.py lines 187-199): name search
via `Transaction.name.ilike('%' + query + '%')`, ordered by date
descending. -/
def nameSearch (rows : List Transaction) (q : String) : AnalysisResponse :=
  .nameResults (sortByDateDesc
    (rows.filter (fun t => ilikeM ('%' :: (q.toList ++ ['%'])) t.name.toList)))

/-- Branch 4 of the `/analysis` handler (app.py lines 205-222): unfiltered
totals over all time. -/
def defaultTotals (rows : List Transaction) : AnalysisResponse :=
  let investments := sumAmountWhere rows (fun t => t.transaction_type == "investment")
  let expenditures := sumAmountWhere rows (fun t => t.transaction_type == "expenditure")
  let sales := sumAmountWhere rows (fun t => t.transaction_type == "sales")
  .totals investments expenditures sales (sales - (investments + expenditures))

/-- The `/analysis` handler: guards are evaluated in the source's fixed
order, the first satisfied guard selecting the branch. -/
def analysis (rows : List Transaction) (req : AnalysisRequest) : AnalysisResponse :=
  let q := pyStrip req.search
  if req.search_type = some "transactions" ∧ req.start_date.isSome ∧ req.end_date.isSome then
    dateRangeListing rows (req.start_date.getD ⟨0, 0, 0⟩) (req.end_date.getD ⟨0, 0, 0⟩)
  else if req.search_type = some "totals" ∧ req.start_date.isSome ∧ req.end_date.isSome then
    dateRangeTotals rows (req.start_date.getD ⟨0, 0, 0⟩) (req.end_date.getD ⟨0, 0, 0⟩)
  else if req.search_type = some "name" ∧ q ≠ "" then
    nameSearch rows q
  else
    defaultTotals rows

/-- The form data of a POST to `/add_transaction` or `/update/<id>`:
`amount` is the outcome of `float(request.form['amount'])` (`none` models the
`ValueError` on a non-numeric string), `date_time` carries the raw components
of the combined field, and `receipt` is `none` when the request carries no
`receipt` file field at all (so `request.files['receipt']` raises).  A file
field left empty by the browser arrives as an upload with filename
equal to the empty string. -/
structure AddForm where
  name : String
  transaction_type : String
  amount : Option ℚ
  date_time : RawDateTime
  receipt : Option UploadFile
deriving DecidableEq

/-- The POST `/add_transaction` handler (app.py lines 56-93).  Every failure
inside the `try` block (non-numeric amount, unparseable date_time, missing
receipt field, or `file.save` on an empty sanitized filename, which targets
the bare upload directory and raises) is caught, logged and swallowed, and
the store is left unchanged; the handler always redirects to the home page.
Modelled from the spec: the backing database truncates `name` to the
declared String(100) column length (config.py, which selects the backend, is
not part of src/ and the spec records the truncation). -/
def add_transaction (st : Store) (fs : FileStore) (form : AddForm) :
    Store × FileStore :=
  match form.amount, parseDateTime form.date_time, form.receipt with
  | some amt, some dt, some f =>
    let filename := secureFilename f.filename
    if filename = "" then (st, fs)
    else
      let fs2 := saveFile fs filename f.content
      let row : Transaction :=
        { id := st.nextId
          name := form.name.take 100
          transaction_type := form.transaction_type
          amount := amt
          date := dt.1
          time := dt.2
          receipt_image := some ("uploads/" ++ filename) }
      ({ rows := st.rows ++ [row], nextId := st.nextId + 1 }, fs2)
  | _, _, _ => (st, fs)

/-- The GET `/edit/<id>` page (app.py lines 227-230):
`Transaction.query.get_or_404(id)` — `none` is the HTTP 404 outcome. -/
def edit_transaction (st : Store) (id : Nat) : Option Transaction :=
  getById st id

/-- Outcome of a POST `/update/<id>` or `/delete/<id>` request. -/
inductive PostResult where
  | notFound404
  | redirectAnalysis
  | redirectEdit
deriving DecidableEq

/-- The POST `/update/<id>` handler (app.py lines 233-259).  `get_or_404`
fails first on an unknown id; then the fields are overwritten from the form,
the receipt is replaced only when a file field with a non-empty filename was
supplied, and any exception inside the `try` (bad amount, bad date_time, or
a `file.save` failure on an empty sanitized filename) redirects back to the
edit page without committing. -/
def update_transaction (st : Store) (fs : FileStore) (id : Nat) (form : AddForm) :
    Store × FileStore × PostResult :=
  match getById st id with
  | none => (st, fs, .notFound404)
  | some t =>
    match form.amount, parseDateTime form.date_time with
    | some amt, some dt =>
      let base : Transaction :=
        { t with
          name := form.name.take 100
          transaction_type := form.transaction_type
          amount := amt
          date := dt.1
          time := dt.2 }
      let commit : Transaction → Store := fun row =>
        { st with rows := st.rows.map (fun u => if u.id == id then row else u) }
      match form.receipt with
      | some f =>
        if f.filename = "" then (commit base, fs, .redirectAnalysis)
        else
          let filename := secureFilename f.filename
          if filename = "" then (st, fs, .redirectEdit)
          else
            let fs2 := saveFile fs filename f.content
            (commit { base with receipt_image := some ("uploads/" ++ filename) },
              fs2, .redirectAnalysis)
      | none => (commit base, fs, .redirectAnalysis)
    | _, _ => (st, fs, .redirectEdit)

/-- The POST `/delete/<id>` handler (app.py lines 262-271): `get_or_404`
then row removal and a redirect to `/analysis`. -/
def delete_transaction (st : Store) (id : Nat) : Store × PostResult :=
  match getById st id with
  | none => (st, .notFound404)
  | some _ =>
    ({ st with rows := st.rows.filter (fun t => t.id != id) }, .redirectAnalysis)

/-! Equation lemmas for the LIKE matcher. -/

theorem ilikeM_nil (s : List Char) : ilikeM [] s = s.isEmpty := by
  rw [ilikeM]

theorem ilikeM_pct_nil (ps : List Char) : ilikeM ('%' :: ps) [] = ilikeM ps [] := by
  rw [ilikeM]
  simp

theorem ilikeM_pct_cons (ps : List Char) (c : Char) (s : List Char) :
    ilikeM ('%' :: ps) (c :: s) = (ilikeM ps (c :: s) || ilikeM ('%' :: ps) s) := by
  rw [ilikeM]
  simp

theorem ilikeM_chr_nil (p : Char) (ps : List Char) (hp : p ≠ '%') :
    ilikeM (p :: ps) [] = false := by
  rw [ilikeM]
  simp [hp]

theorem ilikeM_chr_cons (p : Char) (ps : List Char) (c : Char) (s : List Char)
    (hp : p ≠ '%') (hu : p ≠ '_') :
    ilikeM (p :: ps) (c :: s) = ((lowerChar p == lowerChar c) && ilikeM ps s) := by
  rw [ilikeM]
  simp [hp, hu]

/-- A leading LIKE percent wildcard matches exactly when some suffix of the
string matches the rest of the pattern. -/
theorem ilikeM_pct_iff (ps s : List Char) :
    ilikeM ('%' :: ps) s = true ↔ ∃ s2, s2 <:+ s ∧ ilikeM ps s2 = true := by
  induction s with
  | nil =>
    rw [ilikeM_pct_nil]
    simp [List.suffix_nil]
  | cons c s ih =>
    rw [ilikeM_pct_cons]
    simp only [Bool.or_eq_true, ih]
    constructor
    · rintro (h | ⟨s2, hs2, hm⟩)
      · exact ⟨c :: s, List.suffix_rfl, h⟩
      · exact ⟨s2, hs2.trans (List.suffix_cons c s), hm⟩
    · rintro ⟨s2, hs2, hm⟩
      rcases List.suffix_cons_iff.mp hs2 with h | h
      · subst h
        exact Or.inl hm
      · exact Or.inr ⟨s2, h, hm⟩

/-- A pattern consisting only of a percent wildcard matches every string. -/
theorem ilikeM_pct_only (s : List Char) : ilikeM ['%'] s = true := by
  induction s with
  | nil => rw [ilikeM_pct_nil, ilikeM_nil]; rfl
  | cons a s ihs => rw [ilikeM_pct_cons, ihs]; simp

/-- A pattern consisting of literal characters followed by a trailing percent
wildcard matches exactly when the literal part is a case-insensitive prefix
of the string. -/
theorem ilikeM_lit_iff (q s : List Char) (hq : ∀ c ∈ q, c ≠ '%' ∧ c ≠ '_') :
    ilikeM (q ++ ['%']) s = true ↔ (q.map lowerChar) <+: (s.map lowerChar) := by
  induction q generalizing s with
  | nil =>
    simp only [List.nil_append, List.map_nil]
    constructor
    · intro _
      exact List.nil_prefix
    · intro _
      exact ilikeM_pct_only s
  | cons c q ih =>
    have hc := hq c (by simp)
    have hq2 : ∀ x ∈ q, x ≠ '%' ∧ x ≠ '_' := fun x hx => hq x (by simp [hx])
    cases s with
    | nil =>
      rw [List.cons_append, ilikeM_chr_nil _ _ hc.1]
      simp
    | cons a s =>
      rw [List.cons_append, ilikeM_chr_cons _ _ _ _ hc.1 hc.2]
      simp only [List.map_cons, List.cons_prefix_cons, Bool.and_eq_true, beq_iff_eq]
      exact and_congr_right fun _ => ih s hq2

/-- For a metacharacter-free query, the name-search pattern
percent-query-percent matches a name exactly when the query is a
case-insensitive substring of the name. -/
theorem ilikeM_contains_iff (q s : List Char) (hq : ∀ c ∈ q, c ≠ '%' ∧ c ≠ '_') :
    ilikeM ('%' :: (q ++ ['%'])) s = true ↔ (q.map lowerChar) <:+: (s.map lowerChar) := by
  rw [ilikeM_pct_iff]
  constructor
  · rintro ⟨s2, hsuf, hm⟩
    rw [ilikeM_lit_iff q s2 hq] at hm
    exact List.infix_iff_prefix_suffix.mpr ⟨s2.map lowerChar, hm, List.IsSuffix.map lowerChar hsuf⟩
  · intro h
    rcases List.infix_iff_prefix_suffix.mp h with ⟨t, hpre, hsuf⟩
    rcases hsuf with ⟨u, hu⟩
    rcases List.map_eq_append_iff.mp hu.symm with ⟨l1, l2, hs, _, hl2⟩
    refine ⟨l2, ⟨l1, hs.symm⟩, ?_⟩
    rw [ilikeM_lit_iff q l2 hq, hl2]
    exact hpre

/-- On metacharacter-free queries the source's `ilike` filter agrees with the
spec's case-insensitive-substring filter. -/
theorem nameSearch_filter_eq (rows : List Transaction) (q : String)
    (hq : ∀ c ∈ q.toList, c ≠ '%' ∧ c ≠ '_') :
    rows.filter (fun t => ilikeM ('%' :: (q.toList ++ ['%'])) t.name.toList)
      = rows.filter (fun t => decide (specContainsCI q t.name)) := by
  apply List.filter_congr
  intro t _
  rw [Bool.eq_iff_iff]
  simp only [decide_eq_true_eq]
  exact ilikeM_contains_iff q.toList t.name.toList hq

/-- On metacharacter-free queries, name search returns exactly the
case-insensitive substring matches, ordered by date descending. -/
theorem nameSearch_clean (rows : List Transaction) (q : String)
    (hq : ∀ c ∈ q.toList, c ≠ '%' ∧ c ≠ '_') :
    ∃ l, nameSearch rows q = .nameResults l
      ∧ l.Perm (rows.filter (fun t => decide (specContainsCI q t.name)))
      ∧ l.Pairwise dateDesc := by
  refine ⟨_, rfl, ?_, sortByDateDesc_pairwise _⟩
  rw [← nameSearch_filter_eq rows q hq]
  exact sortByDateDesc_perm _

/-! Dispatch lemmas for the `/analysis` guard chain. -/

theorem analysis_listing_branch (rows : List Transaction) (req : AnalysisRequest)
    (s e : Date) (h1 : req.search_type = some "transactions")
    (h2 : req.start_date = some s) (h3 : req.end_date = some e) :
    analysis rows req = dateRangeListing rows s e := by
  simp [analysis, h1, h2, h3]

theorem analysis_totals_branch (rows : List Transaction) (req : AnalysisRequest)
    (s e : Date) (h1 : req.search_type = some "totals")
    (h2 : req.start_date = some s) (h3 : req.end_date = some e) :
    analysis rows req = dateRangeTotals rows s e := by
  simp [analysis, h1, h2, h3]

theorem analysis_name_branch (rows : List Transaction) (req : AnalysisRequest)
    (h1 : req.search_type = some "name") (hq : pyStrip req.search ≠ "") :
    analysis rows req = nameSearch rows (pyStrip req.search) := by
  simp [analysis, h1, hq]

theorem analysis_default_branch (rows : List Transaction) (req : AnalysisRequest)
    (h1 : req.search_type ≠ some "transactions")
    (h2 : req.search_type ≠ some "totals")
    (h3 : req.search_type ≠ some "name") :
    analysis rows req = defaultTotals rows := by
  simp [analysis, h1, h2, h3]

/-- Specification-side category sum (from the spec's words, for comparison
with the source-derived aggregation): the sum of `amount` over records of the
given transaction type with date in the inclusive range, a record
contributing 0 when it does not match. -/
def specCategorySum (rows : List Transaction) (τ : String) (lo hi : Date) : ℚ :=
  (rows.map (fun t =>
    if t.transaction_type = τ ∧ Date.le lo t.date ∧ Date.le t.date hi then t.amount else 0)).sum

theorem sumAmountWhere_eq_spec (rows : List Transaction) (τ : String) (lo hi : Date) :
    sumAmountWhere rows (fun t => t.transaction_type == τ && inRange lo hi t.date)
      = specCategorySum rows τ lo hi := by
  induction rows with
  | nil => rfl
  | cons t ts ih =>
    simp only [sumAmountWhere, specCategorySum, List.filter_cons, List.map_cons,
      List.sum_cons] at *
    by_cases h : t.transaction_type = τ ∧ Date.le lo t.date ∧ Date.le t.date hi
    · have hb : (t.transaction_type == τ && inRange lo hi t.date) = true := by
        simp [inRange, h.1, h.2.1, h.2.2]
      simp [hb, if_pos h, ih]
    · have hb : (t.transaction_type == τ && inRange lo hi t.date) = false := by
        rw [Bool.and_eq_false_iff]
        by_cases h1 : t.transaction_type = τ
      -- with the type equal, the date must be out of range
        · refine Or.inr ?_
          simp only [inRange, Bool.and_eq_false_iff, decide_eq_false_iff_not]
          rcases Decidable.not_and_iff_or_not.mp h with h2 | h2
          · exact absurd h1 h2
          · exact (Decidable.not_and_iff_or_not.mp h2).imp id id
        · exact Or.inl (by simp [h1])
      simp [hb, if_neg h, ih]

/-- C2: the date-range totals branch returns, for each category, the sum of
`amount` over records of that type with date in the inclusive range (0 when
none match), and profit = sales - (investments + expenditures). -/
theorem c2_date_range_totals (rows : List Transaction) (req : AnalysisRequest)
    (s e lo hi : Date)
    (h1 : req.search_type = some "totals") (h2 : req.start_date = some s)
    (h3 : req.end_date = some e) (hs : parseDate s = some lo)
    (he : parseDate e = some hi) (hle : Date.le lo hi) :
    analysis rows req = .totals
      (specCategorySum rows "investment" lo hi)
      (specCategorySum rows "expenditure" lo hi)
      (specCategorySum rows "sales" lo hi)
      (specCategorySum rows "sales" lo hi -
        (specCategorySum rows "investment" lo hi + specCategorySum rows "expenditure" lo hi)) := by
  rw [analysis_totals_branch rows req s e h1 h2 h3]
  simp only [dateRangeTotals, hs, he, if_pos hle, sumAmountWhere_eq_spec]

/-- C2 witness: the spec's scenario.  Two transactions, sales=100 on
2024-01-05 and expenditure=30 on 2024-01-10; the totals query over
[2024-01-01, 2024-01-31] returns investments=0, expenditures=30, sales=100,
profit=70. -/
theorem c2_witness :
    analysis
      [⟨1, "s", "sales", 100, ⟨2024, 1, 5⟩, ⟨12, 0⟩, none⟩,
       ⟨2, "e", "expenditure", 30, ⟨2024, 1, 10⟩, ⟨12, 0⟩, none⟩]
      ⟨"", some "totals", some ⟨2024, 1, 1⟩, some ⟨2024, 1, 31⟩⟩
      = .totals 0 30 100 70 := by
  rw [c2_date_range_totals _ _ ⟨2024, 1, 1⟩ ⟨2024, 1, 31⟩ ⟨2024, 1, 1⟩ ⟨2024, 1, 31⟩
    rfl rfl rfl (by rfl) (by rfl) (by simp [Date.le])]
  simp [specCategorySum, Date.le]
  norm_num

/-- C3: a date-range listing request returns exactly the records with date in
the inclusive range, ordered by date descending, when both dates parse and
start ≤ end; it redirects when start > end, and redirects when either date
fails to parse as a calendar date. -/
theorem c3_date_range_listing (rows : List Transaction) (req : AnalysisRequest)
    (s e : Date)
    (h1 : req.search_type = some "transactions") (h2 : req.start_date = some s)
    (h3 : req.end_date = some e) :
    (∀ lo hi, parseDate s = some lo → parseDate e = some hi → Date.le lo hi →
      ∃ l, analysis rows req = .listing l
        ∧ l.Perm (rows.filter (fun t => decide (Date.le lo t.date ∧ Date.le t.date hi)))
        ∧ l.Pairwise dateDesc)
    ∧ (∀ lo hi, parseDate s = some lo → parseDate e = some hi → ¬ Date.le lo hi →
      analysis rows req = .redirect)
    ∧ ((parseDate s = none ∨ parseDate e = none) → analysis rows req = .redirect) := by
  rw [analysis_listing_branch rows req s e h1 h2 h3]
  refine ⟨?_, ?_, ?_⟩
  · intro lo hi hs he hle
    rw [dateRangeListing, hs, he]
    simp only [if_pos hle]
    refine ⟨_, rfl, ?_, sortByDateDesc_pairwise _⟩
    have hfe : (fun t : Transaction => inRange lo hi t.date)
        = (fun t => decide (Date.le lo t.date ∧ Date.le t.date hi)) := by
      funext t
      simp [inRange]
    rw [← hfe]
    exact sortByDateDesc_perm _
  · intro lo hi hs he hnle
    rw [dateRangeListing, hs, he]
    simp [if_neg hnle]
  · rintro (h | h)
    · cases he : parseDate e <;> simp [dateRangeListing, h, he]
    · cases hs : parseDate s <;> simp [dateRangeListing, h, hs]

/-- C3 witness: over a store with a sale on 2024-01-05 and an expenditure on
2024-01-10, the listing for [2024-01-01, 2024-01-31] returns both records in
date-descending order, and the reversed range redirects. -/
theorem c3_witness :
    (∃ l, analysis
        [⟨1, "s", "sales", 100, ⟨2024, 1, 5⟩, ⟨12, 0⟩, none⟩,
         ⟨2, "e", "expenditure", 30, ⟨2024, 1, 10⟩, ⟨12, 0⟩, none⟩]
        ⟨"", some "transactions", some ⟨2024, 1, 1⟩, some ⟨2024, 1, 31⟩⟩
        = .listing l
      ∧ l.Perm
          (List.filter
            (fun t => decide (Date.le ⟨2024, 1, 1⟩ t.date ∧ Date.le t.date ⟨2024, 1, 31⟩))
            [⟨1, "s", "sales", 100, ⟨2024, 1, 5⟩, ⟨12, 0⟩, none⟩,
             ⟨2, "e", "expenditure", 30, ⟨2024, 1, 10⟩, ⟨12, 0⟩, none⟩])
      ∧ l.Pairwise dateDesc)
    ∧ analysis
        [⟨1, "s", "sales", 100, ⟨2024, 1, 5⟩, ⟨12, 0⟩, none⟩,
         ⟨2, "e", "expenditure", 30, ⟨2024, 1, 10⟩, ⟨12, 0⟩, none⟩]
        ⟨"", some "transactions", some ⟨2024, 1, 31⟩, some ⟨2024, 1, 1⟩⟩
        = .redirect := by
  constructor
  · exact (c3_date_range_listing _ _ ⟨2024, 1, 1⟩ ⟨2024, 1, 31⟩ rfl rfl rfl).1
      ⟨2024, 1, 1⟩ ⟨2024, 1, 31⟩ (by rfl) (by rfl) (by simp [Date.le])
  · exact (c3_date_range_listing _ _ ⟨2024, 1, 31⟩ ⟨2024, 1, 1⟩ rfl rfl rfl).2.1
      ⟨2024, 1, 31⟩ ⟨2024, 1, 1⟩ (by rfl) (by rfl) (by simp [Date.le])

/-- C4: the analysis guards are checked in the fixed source order; in
particular (a) a transactions request with both dates takes branch 1
whatever the search string, (b) a totals request with both dates takes
branch 2 with no name required, (c) a name request with a non-empty trimmed
query takes branch 3 even when dates are present, (d) an unrecognized or
absent search_type falls to the default-totals branch even when other
parameters are present. -/
theorem c4_guard_precedence (rows : List Transaction) (req : AnalysisRequest)
    (s e : Date) :
    (req.search_type = some "transactions" → req.start_date = some s →
      req.end_date = some e → analysis rows req = dateRangeListing rows s e)
    ∧ (req.search_type = some "totals" → req.start_date = some s →
      req.end_date = some e → analysis rows req = dateRangeTotals rows s e)
    ∧ (req.search_type = some "name" → pyStrip req.search ≠ "" →
      analysis rows req = nameSearch rows (pyStrip req.search))
    ∧ (req.search_type ≠ some "transactions" → req.search_type ≠ some "totals" →
      req.search_type ≠ some "name" → analysis rows req = defaultTotals rows) := by
  refine ⟨?_, ?_, ?_, ?_⟩
  · intro h1 h2 h3
    exact analysis_listing_branch rows req s e h1 h2 h3
  · intro h1 h2 h3
    exact analysis_totals_branch rows req s e h1 h2 h3
  · intro h1 hq
    exact analysis_name_branch rows req h1 hq
  · intro h1 h2 h3
    exact analysis_default_branch rows req h1 h2 h3

/-- C4 witness: a totals request with both dates and an empty search takes
the date-range-totals branch, and a request with an unrecognized search_type
takes the default branch although dates and a search string are present. -/
theorem c4_witness :
    analysis [] ⟨"", some "totals", some ⟨2024, 1, 1⟩, some ⟨2024, 1, 31⟩⟩
      = dateRangeTotals [] ⟨2024, 1, 1⟩ ⟨2024, 1, 31⟩
    ∧ analysis [] ⟨"abc", some "weird", some ⟨2024, 1, 1⟩, some ⟨2024, 1, 31⟩⟩
      = defaultTotals [] := by
  constructor
  · exact (c4_guard_precedence [] _ ⟨2024, 1, 1⟩ ⟨2024, 1, 31⟩).2.1 rfl rfl rfl
  · exact (c4_guard_precedence [] _ ⟨2024, 1, 1⟩ ⟨2024, 1, 31⟩).2.2.2
      (by simp) (by simp) (by simp)

/-- C8: when every record's date lies inside the queried range, the
date-range totals computation coincides with the default (all-time) totals
computation. -/
theorem c8_totals_refinement (rows : List Transaction) (s e lo hi : Date)
    (hs : parseDate s = some lo) (he : parseDate e = some hi)
    (hle : Date.le lo hi)
    (hcov : ∀ t ∈ rows, Date.le lo t.date ∧ Date.le t.date hi) :
    dateRangeTotals rows s e = defaultTotals rows := by
  have hf : ∀ τ : String,
      rows.filter (fun t => t.transaction_type == τ && inRange lo hi t.date)
        = rows.filter (fun t => t.transaction_type == τ) := by
    intro τ
    apply List.filter_congr
    intro t ht
    have hc := hcov t ht
    simp [inRange, hc.1, hc.2]
  rw [dateRangeTotals, hs, he]
  simp only [if_pos hle, defaultTotals, sumAmountWhere, hf]

/-- C8 witness: with a sale on 2024-01-05 and an expenditure on 2024-01-10,
the totals over [2024-01-01, 2024-01-31] (which covers every record date)
equal the default all-time totals. -/
theorem c8_witness :
    dateRangeTotals
      [⟨1, "s", "sales", 100, ⟨2024, 1, 5⟩, ⟨12, 0⟩, none⟩,
       ⟨2, "e", "expenditure", 30, ⟨2024, 1, 10⟩, ⟨12, 0⟩, none⟩]
      ⟨2024, 1, 1⟩ ⟨2024, 1, 31⟩
    = defaultTotals
      [⟨1, "s", "sales", 100, ⟨2024, 1, 5⟩, ⟨12, 0⟩, none⟩,
       ⟨2, "e", "expenditure", 30, ⟨2024, 1, 10⟩, ⟨12, 0⟩, none⟩] := by
  exact c8_totals_refinement _ ⟨2024, 1, 1⟩ ⟨2024, 1, 31⟩ ⟨2024, 1, 1⟩ ⟨2024, 1, 31⟩
    (by rfl) (by rfl) (by simp [Date.le]) (by simp [Date.le])

/-- C5 counterexample: the claim as stated fails on the code.  For the query
a-percent-b, the record named aXb is returned by the name search although
its name does not contain the query as a (case-insensitive) substring: the
interpolated percent acts as a LIKE wildcard. -/
theorem c5_counterexample :
    analysis [⟨1, "aXb", "sales", 5, ⟨2024, 1, 1⟩, ⟨0, 0⟩, none⟩]
      ⟨"a%b", some "name", none, none⟩
      = .nameResults [⟨1, "aXb", "sales", 5, ⟨2024, 1, 1⟩, ⟨0, 0⟩, none⟩]
    ∧ ¬ specContainsCI "a%b" "aXb" := by
  constructor
  · rw [analysis_name_branch _ _ rfl (by decide)]
    have hm : ilikeM ['%', 'a', '%', 'b', '%'] ['a', 'X', 'b'] = true := by
      simp [ilikeM_pct_cons, ilikeM_pct_nil, ilikeM_nil, ilikeM_chr_cons, ilikeM_chr_nil,
        lowerChar]
    simp [nameSearch, List.filter, hm, sortByDateDesc, List.insertionSort,
      show pyStrip "a%b" = "a%b" from rfl]
  · decide

/-- C5 (amended): for name-search requests whose trimmed query is non-empty
and free of the SQL LIKE metacharacters percent and underscore, the result
is exactly the records whose name contains the query as a case-insensitive
substring, ordered by date descending. -/
theorem c5_amended_name_search (rows : List Transaction) (req : AnalysisRequest)
    (h1 : req.search_type = some "name") (hq : pyStrip req.search ≠ "")
    (hclean : ∀ c ∈ (pyStrip req.search).toList, c ≠ '%' ∧ c ≠ '_') :
    ∃ l, analysis rows req = .nameResults l
      ∧ l.Perm (rows.filter (fun t => decide (specContainsCI (pyStrip req.search) t.name)))
      ∧ l.Pairwise dateDesc := by
  rw [analysis_name_branch rows req h1 hq]
  exact nameSearch_clean rows (pyStrip req.search) hclean

/-- C5 witness: a record named Grocery Store is returned for each of the
queries grocery, STORE, and ocery-space-sto. -/
theorem c5_witness :
    analysis [⟨1, "Grocery Store", "sales", 5, ⟨2024, 1, 1⟩, ⟨0, 0⟩, none⟩]
      ⟨"grocery", some "name", none, none⟩
      = .nameResults [⟨1, "Grocery Store", "sales", 5, ⟨2024, 1, 1⟩, ⟨0, 0⟩, none⟩]
    ∧ analysis [⟨1, "Grocery Store", "sales", 5, ⟨2024, 1, 1⟩, ⟨0, 0⟩, none⟩]
      ⟨"STORE", some "name", none, none⟩
      = .nameResults [⟨1, "Grocery Store", "sales", 5, ⟨2024, 1, 1⟩, ⟨0, 0⟩, none⟩]
    ∧ analysis [⟨1, "Grocery Store", "sales", 5, ⟨2024, 1, 1⟩, ⟨0, 0⟩, none⟩]
      ⟨"ocery sto", some "name", none, none⟩
      = .nameResults [⟨1, "Grocery Store", "sales", 5, ⟨2024, 1, 1⟩, ⟨0, 0⟩, none⟩] := by
  refine ⟨?_, ?_, ?_⟩
  · obtain ⟨l, hl, hperm, -⟩ := c5_amended_name_search
      [⟨1, "Grocery Store", "sales", 5, ⟨2024, 1, 1⟩, ⟨0, 0⟩, none⟩]
      ⟨"grocery", some "name", none, none⟩ rfl (by decide) (by decide)
    rw [hl]
    have hp2 : l.Perm [⟨1, "Grocery Store", "sales", 5, ⟨2024, 1, 1⟩, ⟨0, 0⟩, none⟩] :=
      hperm.trans (by decide)
    rw [List.perm_singleton.mp hp2]
  · obtain ⟨l, hl, hperm, -⟩ := c5_amended_name_search
      [⟨1, "Grocery Store", "sales", 5, ⟨2024, 1, 1⟩, ⟨0, 0⟩, none⟩]
      ⟨"STORE", some "name", none, none⟩ rfl (by decide) (by decide)
    rw [hl]
    have hp2 : l.Perm [⟨1, "Grocery Store", "sales", 5, ⟨2024, 1, 1⟩, ⟨0, 0⟩, none⟩] :=
      hperm.trans (by decide)
    rw [List.perm_singleton.mp hp2]
  · obtain ⟨l, hl, hperm, -⟩ := c5_amended_name_search
      [⟨1, "Grocery Store", "sales", 5, ⟨2024, 1, 1⟩, ⟨0, 0⟩, none⟩]
      ⟨"ocery sto", some "name", none, none⟩ rfl (by decide) (by decide)
    rw [hl]
    have hp2 : l.Perm [⟨1, "Grocery Store", "sales", 5, ⟨2024, 1, 1⟩, ⟨0, 0⟩, none⟩] :=
      hperm.trans (by decide)
    rw [List.perm_singleton.mp hp2]

/-- C10: the search query is interpolated unescaped into the LIKE pattern,
so (a) for the query a-percent-b the search returns the record named raXbow
whose name does not contain the query literally, while (b) for every query
free of the LIKE metacharacters percent and underscore the search computes
exactly the case-insensitive literal-substring matches, date-descending. -/
theorem c10_like_metacharacters :
    (analysis [⟨1, "raXbow", "sales", 5, ⟨2024, 1, 1⟩, ⟨0, 0⟩, none⟩]
        ⟨"a%b", some "name", none, none⟩
        = .nameResults [⟨1, "raXbow", "sales", 5, ⟨2024, 1, 1⟩, ⟨0, 0⟩, none⟩]
      ∧ ¬ specContainsCI "a%b" "raXbow")
    ∧ ∀ (rows : List Transaction) (q : String),
        (∀ c ∈ q.toList, c ≠ '%' ∧ c ≠ '_') →
        ∃ l, nameSearch rows q = .nameResults l
          ∧ l.Perm (rows.filter (fun t => decide (specContainsCI q t.name)))
          ∧ l.Pairwise dateDesc := by
  refine ⟨⟨?_, ?_⟩, ?_⟩
  · rw [analysis_name_branch _ _ rfl (by decide)]
    have hm : ilikeM ['%', 'a', '%', 'b', '%'] ['r', 'a', 'X', 'b', 'o', 'w'] = true := by
      simp [ilikeM_pct_cons, ilikeM_pct_nil, ilikeM_nil, ilikeM_chr_cons, ilikeM_chr_nil,
        lowerChar]
    simp [nameSearch, List.filter, hm, sortByDateDesc, List.insertionSort,
      show pyStrip "a%b" = "a%b" from rfl]
  · decide
  · intro rows q hq
    exact nameSearch_clean rows q hq

/-- C10 witness: the clean-query part instantiated at the query sto against
a one-record store. -/
theorem c10_witness :
    ∃ l, nameSearch [⟨1, "Grocery Store", "sales", 5, ⟨2024, 1, 1⟩, ⟨0, 0⟩, none⟩] "sto"
      = .nameResults l
      ∧ l.Perm
          (List.filter (fun t => decide (specContainsCI "sto" t.name))
            [⟨1, "Grocery Store", "sales", 5, ⟨2024, 1, 1⟩, ⟨0, 0⟩, none⟩])
      ∧ l.Pairwise dateDesc :=
  c10_like_metacharacters.2
    [⟨1, "Grocery Store", "sales", 5, ⟨2024, 1, 1⟩, ⟨0, 0⟩, none⟩] "sto" (by decide)

/-- C1: the claim fails on the code, which is the bug. The create handler
calls `file.save` unconditionally, so a create request with the receipt file
field left empty (sanitized filename empty, so the save targets the bare
upload directory and raises) or with no receipt field at all
(`request.files['receipt']` raises) has its exception swallowed and inserts
no record; and every record a successful create does insert carries
`receipt_image = some path`, never `None`. -/
theorem c1_receipt_code_bug :
    (add_transaction ⟨[], 1⟩ []
      ⟨"Coffee", "expenditure", some ((9 : ℚ) / 2), ⟨2024, 3, 1, 9, 0⟩, some ⟨"", []⟩⟩).1
      = ⟨[], 1⟩
    ∧ (add_transaction ⟨[], 1⟩ []
      ⟨"Coffee", "expenditure", some ((9 : ℚ) / 2), ⟨2024, 3, 1, 9, 0⟩, none⟩).1
      = ⟨[], 1⟩
    ∧ ∀ (st : Store) (fs : FileStore) (form : AddForm) (t : Transaction),
        t ∈ (add_transaction st fs form).1.rows →
        t ∈ st.rows ∨ t.receipt_image ≠ none := by
  refine ⟨rfl, rfl, ?_⟩
  intro st fs form t ht
  cases ham : form.amount with
  | none => rw [add_transaction, ham] at ht; exact Or.inl ht
  | some amt =>
  cases hdt : parseDateTime form.date_time with
  | none => rw [add_transaction, ham, hdt] at ht; exact Or.inl ht
  | some dt =>
  cases hr : form.receipt with
  | none => rw [add_transaction, ham, hdt, hr] at ht; exact Or.inl ht
  | some f =>
    simp only [add_transaction, ham, hdt, hr] at ht
    by_cases hf : secureFilename f.filename = ""
    · rw [if_pos hf] at ht
      exact Or.inl ht
    · rw [if_neg hf] at ht
      simp only [List.mem_append, List.mem_singleton] at ht
      rcases ht with ht | ht
      · exact Or.inl ht
      · subst ht
        exact Or.inr (by simp)

/-- C1 witness: instantiating the general part at a successful create shows
the inserted record indeed carries a receipt path. -/
theorem c1_witness :
    (⟨1, "Coffee", "expenditure", 5, ⟨2024, 3, 1⟩, ⟨9, 0⟩, some "uploads/r1.png"⟩ : Transaction)
        ∈ (⟨[], 1⟩ : Store).rows
    ∨ (⟨1, "Coffee", "expenditure", 5, ⟨2024, 3, 1⟩, ⟨9, 0⟩, some "uploads/r1.png"⟩ :
        Transaction).receipt_image ≠ none :=
  c1_receipt_code_bug.2.2 ⟨[], 1⟩ []
    ⟨"Coffee", "expenditure", some 5, ⟨2024, 3, 1, 9, 0⟩, some ⟨"r1.png", [7]⟩⟩
    ⟨1, "Coffee", "expenditure", 5, ⟨2024, 3, 1⟩, ⟨9, 0⟩, some "uploads/r1.png"⟩
    (by decide)

/-- C6: after a create that succeeds (numeric amount, parseable date_time,
and a receipt upload with non-empty sanitized filename), fetching the new
record by its assigned id returns exactly the supplied fields, with the name
truncated to the 100-character column length and the receipt stored as its
uploads-relative reference. -/
theorem c6_round_trip (st : Store) (fs : FileStore) (form : AddForm)
    (a : ℚ) (d : Date) (tm : Time) (f : UploadFile)
    (hfresh : ∀ t ∈ st.rows, t.id ≠ st.nextId)
    (ham : form.amount = some a) (hdt : parseDateTime form.date_time = some (d, tm))
    (hr : form.receipt = some f) (hfn : secureFilename f.filename ≠ "") :
    getById (add_transaction st fs form).1 st.nextId =
      some { id := st.nextId
             name := form.name.take 100
             transaction_type := form.transaction_type
             amount := a
             date := d
             time := tm
             receipt_image := some ("uploads/" ++ secureFilename f.filename) } := by
  simp only [add_transaction, ham, hdt, hr, if_neg hfn]
  rw [getById, List.find?_append]
  have hnone : st.rows.find? (fun t => t.id == st.nextId) = none := by
    rw [List.find?_eq_none]
    intro x hx
    simpa using hfresh x hx
  rw [hnone]
  simp

/-- C6 witness: creating Coffee with receipt r1.png in the empty store and
fetching id 1 returns exactly the submitted fields. -/
theorem c6_witness :
    getById (add_transaction ⟨[], 1⟩ []
      ⟨"Coffee", "expenditure", some 5, ⟨2024, 3, 1, 9, 0⟩, some ⟨"r1.png", [7]⟩⟩).1 1
      = some ⟨1, "Coffee", "expenditure", 5, ⟨2024, 3, 1⟩, ⟨9, 0⟩, some "uploads/r1.png"⟩ := by
  rw [c6_round_trip ⟨[], 1⟩ []
    ⟨"Coffee", "expenditure", some 5, ⟨2024, 3, 1, 9, 0⟩, some ⟨"r1.png", [7]⟩⟩
    5 ⟨2024, 3, 1⟩ ⟨9, 0⟩ ⟨"r1.png", [7]⟩ (by simp) rfl (by rfl) rfl (by decide)]
  decide

/-- C7: for an id with no row, the edit page, update and delete all fail
NotFound (HTTP 404) and leave the store untouched (in particular update
creates no row); and after a successful delete of an existing id, a
subsequent lookup of that id fails NotFound. -/
theorem c7_not_found (st : Store) (fs : FileStore) (id : Nat) (form : AddForm) :
    (getById st id = none →
      edit_transaction st id = none
      ∧ update_transaction st fs id form = (st, fs, .notFound404)
      ∧ delete_transaction st id = (st, .notFound404))
    ∧ (∀ t, getById st id = some t →
        getById (delete_transaction st id).1 id = none) := by
  constructor
  · intro h
    refine ⟨h, ?_, ?_⟩
    · rw [update_transaction, h]
    · rw [delete_transaction, h]
  · intro t ht
    rw [delete_transaction, ht]
    rw [getById, List.find?_eq_none]
    intro x hx
    rw [List.mem_filter] at hx
    simpa using hx.2

/-- C7 witness: on a one-record store, looking up an absent id 2 fails
NotFound everywhere without changing the store, and deleting the present
id 1 makes its lookup fail NotFound. -/
theorem c7_witness :
    (edit_transaction ⟨[⟨1, "a", "sales", 5, ⟨2024, 1, 1⟩, ⟨0, 0⟩, none⟩], 2⟩ 2 = none
      ∧ update_transaction ⟨[⟨1, "a", "sales", 5, ⟨2024, 1, 1⟩, ⟨0, 0⟩, none⟩], 2⟩ [] 2
          ⟨"b", "sales", some 5, ⟨2024, 1, 2, 0, 0⟩, none⟩
          = (⟨[⟨1, "a", "sales", 5, ⟨2024, 1, 1⟩, ⟨0, 0⟩, none⟩], 2⟩, [], .notFound404)
      ∧ delete_transaction ⟨[⟨1, "a", "sales", 5, ⟨2024, 1, 1⟩, ⟨0, 0⟩, none⟩], 2⟩ 2
          = (⟨[⟨1, "a", "sales", 5, ⟨2024, 1, 1⟩, ⟨0, 0⟩, none⟩], 2⟩, .notFound404))
    ∧ getById (delete_transaction ⟨[⟨1, "a", "sales", 5, ⟨2024, 1, 1⟩, ⟨0, 0⟩, none⟩], 2⟩ 1).1 1
        = none := by
  constructor
  · exact (c7_not_found ⟨[⟨1, "a", "sales", 5, ⟨2024, 1, 1⟩, ⟨0, 0⟩, none⟩], 2⟩ [] 2
      ⟨"b", "sales", some 5, ⟨2024, 1, 2, 0, 0⟩, none⟩).1 (by decide)
  · exact (c7_not_found ⟨[⟨1, "a", "sales", 5, ⟨2024, 1, 1⟩, ⟨0, 0⟩, none⟩], 2⟩ [] 1
      ⟨"b", "sales", some 5, ⟨2024, 1, 2, 0, 0⟩, none⟩).2
      ⟨1, "a", "sales", 5, ⟨2024, 1, 1⟩, ⟨0, 0⟩, none⟩ (by decide)

/-- C9: the upload save sequence stores under the reference
uploads/<sanitized_name>; a second upload whose filename sanitizes to the
same name overwrites the first with no collision handling; and the declared
ALLOWED_EXTENSIONS set is never consulted: a file whose extension is not in
the set is saved and referenced identically. -/
theorem c9_file_store (fs : FileStore) (f g : UploadFile)
    (hsame : secureFilename g.filename = secureFilename f.filename) :
    (saveUpload fs f).2 = "uploads/" ++ secureFilename f.filename
    ∧ lookupFile (saveUpload fs f).1 (secureFilename f.filename) = some f.content
    ∧ lookupFile (saveUpload (saveUpload fs f).1 g).1 (secureFilename f.filename)
        = some g.content
    ∧ (hasAllowedExtension f.filename = false →
        (saveUpload fs f).2 = "uploads/" ++ secureFilename f.filename
        ∧ lookupFile (saveUpload fs f).1 (secureFilename f.filename) = some f.content) := by
  refine ⟨rfl, ?_, ?_, fun _ => ⟨rfl, ?_⟩⟩
  · simp [saveUpload, saveFile, lookupFile]
  · simp [saveUpload, saveFile, lookupFile, hsame]
  · simp [saveUpload, saveFile, lookupFile]

/-- C9 witness: evil.exe (extension not in ALLOWED_EXTENSIONS) is saved and
referenced as uploads/evil.exe, and a second upload sanitizing to the same
name (the space is stripped) overwrites the first. -/
theorem c9_witness :
    (saveUpload [] ⟨"evil.exe", [1]⟩).2 = "uploads/" ++ secureFilename "evil.exe"
    ∧ lookupFile (saveUpload (saveUpload [] ⟨"evil.exe", [1]⟩).1 ⟨"ev il.exe", [2]⟩).1
        (secureFilename "evil.exe") = some [2]
    ∧ hasAllowedExtension "evil.exe" = false := by
  obtain ⟨h1, -, h3, -⟩ := c9_file_store [] ⟨"evil.exe", [1]⟩ ⟨"ev il.exe", [2]⟩ (by decide)
  exact ⟨h1, h3, by decide⟩

end ProfitAnalyzer
